import Mathlib

/-!
Shallow embedding of the Ivy admin dashboard's core logic:
the supplier-order item pipeline (add / update / delete / recalculate and
order-total recomputation), the price-rule total, the inventory-sync batch
fetch with retry/backoff, inventory-level persistence, and the size/color
option classifier of the inventory statistics endpoint.

Numbers are modelled as exact rationals (`ℚ`); JavaScript `x || d`
falsy-fallback on numeric and optional values is modelled explicitly.
-/

namespace Ivy

/-- JavaScript `x || d` on an optional rational: `null`/`undefined` and `0`
fall back to the default `d`. -/
def jsOrQ : Option ℚ → ℚ → ℚ
  | none, d => d
  | some a, d => if a = 0 then d else a

/-- JavaScript `x || d` on an optional integer. -/
def jsOrZ : Option ℤ → ℤ → ℤ
  | none, d => d
  | some a, d => if a = 0 then d else a

/-- JavaScript `x || d` on an optional natural number. -/
def jsOrNat : Option ℕ → ℕ → ℕ
  | none, d => d
  | some a, d => if a = 0 then d else a

/-- A row of `product_variants` as read by the order-items route:
`id`, `cost` (nullable), `shopify_id` (nullable). -/
structure Variant where
  id : String
  cost : Option ℚ
  shopify_id : Option String
deriving DecidableEq

/-- A row of `supplier_order_items`. Timestamp columns are omitted. -/
structure OrderItem where
  id : ℕ
  variant_id : Option String
  product_title : Option String
  variant_title : Option String
  sku : Option String
  quantity : ℚ
  unit_price : ℚ
  line_total : ℚ
  metafields : List (String × String)
  is_validated : Bool
  is_printed : Bool
deriving DecidableEq

/-- The order columns touched by the pipeline. `balance_adjustment` is
nullable (`order?.balance_adjustment || 0` in the source). -/
structure Order where
  status : String
  balance_adjustment : Option ℚ
  subtotal : ℚ
  total_ht : ℚ
  total_ttc : ℚ
deriving DecidableEq

/-- One supplier order together with its item rows. `nextId` models the
database assigning fresh row ids on insert. -/
structure OrderState where
  order : Order
  items : List OrderItem
  nextId : ℕ
deriving DecidableEq

/-- `subtotal` as computed by `updateOrderTotals`: only items with
`is_validated` contribute their `line_total`. -/
def validatedSubtotal (items : List OrderItem) : ℚ :=
  ((items.filter fun it => it.is_validated).map fun it => it.line_total).sum

/-- `updateOrderTotals` (part_001, lines 345-377): recompute
`subtotal`, `total_ht = subtotal + balance_adjustment`, and
`total_ttc = total_ht * 1.2` from the stored items. -/
def updateOrderTotals (s : OrderState) : OrderState :=
  let subtotal := validatedSubtotal s.items
  let totalHt := subtotal + jsOrQ s.order.balance_adjustment 0
  let totalTtc := totalHt * (1.2 : ℚ)
  { s with
    order := { s.order with subtotal := subtotal, total_ht := totalHt, total_ttc := totalTtc } }

/-- Look a variant up by its (optional) id, as the `.in('id', …)` query plus
map lookup does. -/
def lookupVariant (store : List Variant) : Option String → Option Variant
  | none => none
  | some vid => store.find? fun v => v.id = vid

/-- `variantCostMap[item.variant_id] || 0`: the map itself holds
`v.cost || 0`, and a missing key yields `0`. -/
def variantCost (store : List Variant) (vid : Option String) : ℚ :=
  match lookupVariant store vid with
  | some v => jsOrQ v.cost 0
  | none => 0

/-- `variantShopifyIdMap[item.variant_id]` (nullable). -/
def variantShopifyId (store : List Variant) (vid : Option String) : Option String :=
  match lookupVariant store vid with
  | some v => v.shopify_id
  | none => none

/-- `shopifyId ? (variantMetafieldsMap[shopifyId] || {}) : {}`. -/
def metafieldsFor (store : List Variant) (mfMap : List (String × List (String × String)))
    (vid : Option String) : List (String × String) :=
  match variantShopifyId store vid with
  | some sid => (mfMap.lookup sid).getD []
  | none => []

/-- One entry of an add-items request body. -/
structure AddReq where
  variant_id : Option String
  product_title : Option String
  variant_title : Option String
  sku : Option String
  quantity : Option ℕ
deriving DecidableEq

/-- The rows the POST handler builds for one request entry: one row per
unit, `quantity` pinned to `1`, `unit_price = line_total =` variant cost
(`item.quantity || 1` rows). Ids are assigned at insert time. -/
def buildRows (store : List Variant) (mfMap : List (String × List (String × String)))
    (req : AddReq) : List OrderItem :=
  let unitPrice := variantCost store req.variant_id
  let quantity := jsOrNat req.quantity 1
  let metafields := metafieldsFor store mfMap req.variant_id
  List.replicate quantity
    { id := 0
      variant_id := req.variant_id
      product_title := req.product_title
      variant_title := req.variant_title
      sku := req.sku
      quantity := 1
      unit_price := unitPrice
      line_total := unitPrice
      metafields := metafields
      is_validated := false
      is_printed := false }

/-- Database insert: assign consecutive fresh row ids. -/
def withIds (start : ℕ) : List OrderItem → List OrderItem
  | [] => []
  | r :: rs => { r with id := start } :: withIds (start + 1) rs

/-- The rows inserted by one POST call. -/
def insertedRows (store : List Variant) (mfMap : List (String × List (String × String)))
    (reqs : List AddReq) (s : OrderState) : List OrderItem :=
  withIds s.nextId (reqs.map (buildRows store mfMap)).flatten

/-- POST add-items (part_001, lines 9-102): insert one row per unit,
recompute order totals, then move a `draft` order to `in_progress`. -/
def addItems (store : List Variant) (mfMap : List (String × List (String × String)))
    (reqs : List AddReq) (s : OrderState) : OrderState :=
  let rows := insertedRows store mfMap reqs s
  let s1 := updateOrderTotals { s with items := s.items ++ rows, nextId := s.nextId + rows.length }
  { s1 with
    order := { s1.order with
      status := if s1.order.status = "draft" then "in_progress" else s1.order.status } }

/-- The POST handler including its required-field validation: `none` models
a missing field (HTTP 400); on success it returns the inserted rows and the
new state. -/
def postAddItems (shopId orderId : Option String) (reqs : Option (List AddReq))
    (store : List Variant) (mfMap : List (String × List (String × String)))
    (s : OrderState) : Option (List OrderItem × OrderState) :=
  match shopId, orderId, reqs with
  | some _, some _, some items => some (insertedRows store mfMap items s, addItems store mfMap items s)
  | _, _, _ => none

/-- The body of a PUT item update: each field is present iff the JSON body
carried it (`undefined` otherwise). -/
structure UpdateReq where
  itemId : ℕ
  is_validated : Option Bool
  is_printed : Option Bool
  quantity : Option ℚ
  unit_price : Option ℚ
deriving DecidableEq

/-- The `updateData` computation of the PUT handler (part_001, lines
246-291): `quantity` sets `line_total = (unit_price || stored) * quantity`,
then `unit_price` overwrites it with `unit_price * (quantity || stored)`. -/
def applyItemUpdate (req : UpdateReq) (it : OrderItem) : OrderItem :=
  let it1 := match req.is_validated with
    | some b => { it with is_validated := b }
    | none => it
  let it2 := match req.is_printed with
    | some b => { it1 with is_printed := b }
    | none => it1
  let lt1 : Option ℚ := match req.quantity with
    | some q => some (jsOrQ req.unit_price it.unit_price * q)
    | none => none
  let lt2 : Option ℚ := match req.unit_price with
    | some p => some (p * jsOrQ req.quantity it.quantity)
    | none => lt1
  { it2 with
    quantity := req.quantity.getD it.quantity
    unit_price := req.unit_price.getD it.unit_price
    line_total := lt2.getD it.line_total }

/-- PUT item update: rewrite the targeted row, then recompute order totals
iff any of `quantity`, `unit_price`, `is_validated` was in the body. -/
def updateItem (req : UpdateReq) (s : OrderState) : OrderState :=
  let s1 := { s with
    items := s.items.map fun it => if it.id = req.itemId then applyItemUpdate req it else it }
  if req.quantity.isSome || req.unit_price.isSome || req.is_validated.isSome then
    updateOrderTotals s1
  else s1

/-- DELETE item: remove the row, recompute order totals. -/
def deleteItem (itemId : ℕ) (s : OrderState) : OrderState :=
  updateOrderTotals { s with items := s.items.filter fun it => it.id ≠ itemId }

/-- One step of `recalculate_prices`: overwrite `unit_price` with the
variant's current cost (`0` when the item has no variant) and
`line_total = cost * quantity`. -/
def recalcItem (store : List Variant) (it : OrderItem) : OrderItem :=
  let cost := match it.variant_id with
    | some vid => variantCost store (some vid)
    | none => 0
  { it with unit_price := cost, line_total := cost * it.quantity }

/-- The `recalculate_prices` action (part_001, lines 114-166): re-price
every item from current variant costs, then recompute order totals. -/
def recalculatePrices (store : List Variant) (s : OrderState) : OrderState :=
  updateOrderTotals { s with items := s.items.map (recalcItem store) }

/-- The mutating item operations of the order-items route. -/
inductive ItemOp where
  | add (reqs : List AddReq)
  | update (req : UpdateReq)
  | del (itemId : ℕ)
  | recalc

/-- Dispatch of one mutating operation. -/
def applyItemOp (store : List Variant) (mfMap : List (String × List (String × String))) :
    ItemOp → OrderState → OrderState
  | .add reqs, s => addItems store mfMap reqs s
  | .update req, s => updateItem req s
  | .del itemId, s => deleteItem itemId s
  | .recalc, s => recalculatePrices store s

/-- The derived-totals invariant of a supplier order. -/
def totalsInvariant (s : OrderState) : Prop :=
  s.order.subtotal = validatedSubtotal s.items ∧
  s.order.total_ht = s.order.subtotal + jsOrQ s.order.balance_adjustment 0 ∧
  s.order.total_ttc = s.order.total_ht * (1.2 : ℚ)

/-- The status values named by the order detail page's `SupplierOrder`
interface (part_002, lines 39-50). -/
def claimedStatuses : List String := ["draft", "requested", "produced", "completed"]

/-- The status transitions the order detail page offers (part_002): which
`changeStatus` targets are reachable from each status. -/
def uiStatusTargets : String → List String
  | "draft" => ["requested"]
  | "requested" => ["draft", "produced"]
  | "produced" => ["requested", "completed"]
  | _ => []

/-- A metafield modifier row of a price rule. API rows carry the DB field
names (`modifier_amount`), form rows the UI name (`amount`); either may be
absent, hence the `modifier_amount || amount || 0` chain in the source. -/
structure PriceModifier where
  metafield_namespace : Option String
  metafield_key : Option String
  metafield_value : Option String
  amount : Option ℚ
  modifier_amount : Option ℚ
deriving DecidableEq

/-- An option modifier row of a price rule. -/
structure OptionPriceModifier where
  option_name : Option String
  option_value : Option String
  amount : Option ℚ
  modifier_amount : Option ℚ
deriving DecidableEq

/-- A price rule with base price and its two modifier lists. -/
structure PriceRule where
  sku : String
  base_price : ℚ
  product_type : Option String
  is_active : Bool
  modifiers : List PriceModifier
  option_modifiers : List OptionPriceModifier
deriving DecidableEq

/-- `m.modifier_amount || m.amount || 0`. -/
def modAmount (m : PriceModifier) : ℚ :=
  jsOrQ m.modifier_amount (jsOrQ m.amount 0)

/-- `m.modifier_amount || m.amount || 0` for option modifiers. -/
def optModAmount (m : OptionPriceModifier) : ℚ :=
  jsOrQ m.modifier_amount (jsOrQ m.amount 0)

/-- `calculateTotalPrice` (part_003, lines 453-463): base price plus the
reduce-sum of both modifier lists. -/
def calculateTotalPrice (rule : PriceRule) : ℚ :=
  let modifiersTotal := rule.modifiers.foldl (fun sum m => sum + modAmount m) 0
  let optionModifiersTotal := rule.option_modifiers.foldl (fun sum m => sum + optModAmount m) 0
  rule.base_price + modifiersTotal + optionModifiersTotal

/-- JavaScript `toUpperCase()` on the characters of a string. -/
def jsToUpper (s : String) : String :=
  ⟨s.data.map Char.toUpper⟩

/-- The alternatives of the size regex
`^(XXXS|XXS|XS|S|M|L|XL|XXL|2XL|3XL|4XL|5XL|\d+)$` used by the inventory
stats route. -/
def sizeAlternatives : List String :=
  ["XXXS", "XXS", "XS", "S", "M", "L", "XL", "XXL", "2XL", "3XL", "4XL", "5XL"]

/-- `sizePattern.test(option)`: the whole string matches one alternative
case-insensitively, or is a nonempty digit string. -/
def sizePatternTest (s : String) : Bool :=
  sizeAlternatives.contains (jsToUpper s) || (!s.data.isEmpty && s.data.all Char.isDigit)

/-- Modelled from the spec: the claim's size regex
`^(XXXS|XXS|XS|S|M|L|XL|XXL|2XL|3XL|4XL|5XL|\d+)$`, matched
case-insensitively against the whole option value (the `i` flag uppercases
both sides; `\d+` is a nonempty run of digits). -/
def specSizeRegexMatch (s : String) : Bool :=
  (sizeAlternatives.map jsToUpper).contains (jsToUpper s) ||
    (!s.data.isEmpty && s.data.all Char.isDigit)

/-- One grouping bucket of the stats aggregation. -/
structure StatGroup where
  count : ℕ
  stock : ℤ
deriving DecidableEq

/-- Create-or-increment a bucket: `count++`, `stock += qty`. -/
def bumpGroup (m : List (String × StatGroup)) (key : String) (qty : ℤ) :
    List (String × StatGroup) :=
  match m.lookup key with
  | some g => m.map fun kv => if kv.1 = key then (key, ⟨g.count + 1, g.stock + qty⟩) else kv
  | none => m ++ [(key, ⟨1, qty⟩)]

/-- The by-size and by-color groupings of the stats route. -/
structure OptionStats where
  bySize : List (String × StatGroup)
  byColor : List (String × StatGroup)
deriving DecidableEq

/-- Classification of one option value (stats route, lines 95-115): a size
(grouped under its uppercase) iff it matches the size regex, otherwise a
color (grouped under the raw value). -/
def processOption (qty : ℤ) (s : String) (acc : OptionStats) : OptionStats :=
  if sizePatternTest s then
    { acc with bySize := bumpGroup acc.bySize (jsToUpper s) qty }
  else
    { acc with byColor := bumpGroup acc.byColor s qty }

/-- One inventory level as reported by the platform during sync
(`available` may be null or negative). -/
structure ShopifyLevel where
  inventory_item_id : String
  location_id : String
  available : Option ℤ
deriving DecidableEq

/-- One row upserted into `inventory_levels`. -/
structure InventoryUpsert where
  variant_id : String
  location_id : String
  quantity : ℤ
deriving DecidableEq

/-- Persistence of one reported level (part_000, lines 337-348): skip it
when the inventory item is unmapped, else store
`quantity = level.available || 0`. -/
def levelRow (uuidMap : List (String × String)) (l : ShopifyLevel) : Option InventoryUpsert :=
  match uuidMap.lookup l.inventory_item_id with
  | some vu => some ⟨vu, l.location_id, jsOrZ l.available 0⟩
  | none => none

/-- The rows persisted for a list of reported levels. -/
def processLevels (uuidMap : List (String × String)) (levels : List ShopifyLevel) :
    List InventoryUpsert :=
  levels.filterMap (levelRow uuidMap)

/-- One inventory item of a batch response (`cost` is a nullable string;
`item.cost ? parseFloat(item.cost) : 0`). -/
structure InventoryItemResp where
  id : String
  cost : Option ℚ
deriving DecidableEq

/-- The outcome of one fetch attempt of a cost batch. -/
inductive FetchResp where
  | ok (items : List InventoryItemResp)
  | rateLimited
  | httpError (status : ℕ)
deriving DecidableEq

/-- The result of processing one batch: whether it succeeded, how many
retries were used, the delays awaited before each attempt (ms), and the
costs recorded. -/
structure BatchResult where
  success : Bool
  retries : ℕ
  delays : List ℕ
  costs : List (String × ℚ)
deriving DecidableEq

/-- `retries === 0 ? 500 : 1000 * Math.pow(2, retries)`. -/
def attemptDelay (retries : ℕ) : ℕ :=
  if retries = 0 then 500 else 1000 * 2 ^ retries

/-- `maxRetries = 3` in the sync route. -/
def maxRetries : ℕ := 3

/-- The retry loop of the cost fetch (part_000, lines 182-231), driven by
the scripted response of each successive attempt: wait `attemptDelay`, then
on 2xx record `cost.getD 0` per item, on 429 retry while
`retries + 1 ≤ maxRetries`, on any other status abort the batch. -/
def fetchBatchAux : ℕ → List ℕ → List FetchResp → BatchResult
  | retries, delays, [] => ⟨false, retries, delays, []⟩
  | retries, delays, resp :: rest =>
    let ds := delays ++ [attemptDelay retries]
    match resp with
    | .ok items => ⟨true, retries, ds, items.map fun it => (it.id, it.cost.getD 0)⟩
    | .rateLimited =>
      if retries + 1 ≤ maxRetries then fetchBatchAux (retries + 1) ds rest
      else ⟨false, retries + 1, ds, []⟩
    | .httpError _ => ⟨false, retries, ds, []⟩

/-- Process one cost batch from a fresh retry counter. -/
def fetchCostBatch (resps : List FetchResp) : BatchResult :=
  fetchBatchAux 0 [] resps

/-- The batches are processed sequentially and unconditionally: each
batch's scripted responses yield its result independently of the others. -/
def runCostBatches (scripts : List (List FetchResp)) : List BatchResult :=
  scripts.map fetchCostBatch

/-! Concrete instances used by witnesses and counterexamples. -/

/-- An order in `draft` with no items and consistent (zero) totals. -/
def c1State : OrderState := ⟨⟨"draft", none, 0, 0, 0⟩, [], 0⟩

/-- A stored row with `quantity = 1`, `unit_price = 2`, `line_total = 2`. -/
def c2Item : OrderItem := ⟨1, none, none, none, none, 1, 2, 2, [], false, false⟩

/-- An update body carrying `quantity = 0` together with `unit_price = 3`. -/
def c2Req : UpdateReq := ⟨1, none, none, some 0, some 3⟩

/-- A stored row with `quantity = 1`, `unit_price = 2`, `line_total = 2`. -/
def c2wItem : OrderItem := ⟨1, none, none, none, none, 1, 2, 2, [], false, false⟩

/-- An update body carrying `quantity = 3` and `unit_price = 4`. -/
def c2wReq : UpdateReq := ⟨1, none, none, some 3, some 4⟩

/-- A store holding one variant with cost 7.50. -/
def c3Store : List Variant := [⟨"X", some (7.5 : ℚ), some "sv1"⟩]

/-- A request entry for variant `X` with quantity 3. -/
def c3Req : AddReq := ⟨some "X", some "Tee", some "M", some "TS-M", some 3⟩

/-- An order in `draft` with no items and consistent (zero) totals. -/
def c4State : OrderState := ⟨⟨"draft", none, 0, 0, 0⟩, [], 0⟩

/-- A metafield modifier with a form-side amount of 2. -/
def c9ModA : PriceModifier := ⟨some "custom", some "marking", some "DTG", some 2, none⟩

/-- A metafield modifier with a DB-side amount of 3. -/
def c9ModB : PriceModifier := ⟨some "custom", some "marking", some "EMB", none, some 3⟩

/-- An option modifier with amount 1. -/
def c9Opt : OptionPriceModifier := ⟨some "Couleur", some "French Navy", some 1, none⟩

/-- A price rule with two metafield modifiers and one option modifier. -/
def c9Rule : PriceRule := ⟨"T-shirt", 10, some "T-shirt", true, [c9ModA, c9ModB], [c9Opt]⟩

/-- A request entry for a variant id absent from the store. -/
def c10Req : AddReq := ⟨some "X", none, none, none, some 2⟩

/-- An order in `draft` with no items and consistent (zero) totals. -/
def c10State : OrderState := ⟨⟨"draft", none, 0, 0, 0⟩, [], 0⟩

/-- The scripted responses of one batch: two 429s, then a 200 returning
one item with cost 7 and one with null cost. -/
def c7Scenario : List FetchResp :=
  [FetchResp.rateLimited, FetchResp.rateLimited,
    FetchResp.ok [⟨"a", some 7⟩, ⟨"b", none⟩]]

/-! Helper lemmas. -/

lemma totalsInvariant_updateOrderTotals (s : OrderState) :
    totalsInvariant (updateOrderTotals s) :=
  ⟨rfl, rfl, rfl⟩

lemma totalsInvariant_setStatus (s : OrderState) (st : String) (h : totalsInvariant s) :
    totalsInvariant { s with order := { s.order with status := st } } := h

lemma validatedSubtotal_cons (it : OrderItem) (items : List OrderItem) :
    validatedSubtotal (it :: items) =
      (if it.is_validated then it.line_total else 0) + validatedSubtotal items := by
  cases hv : it.is_validated <;> simp [validatedSubtotal, List.filter_cons, hv]

lemma validatedSubtotal_map (f : OrderItem → OrderItem)
    (h1 : ∀ it, (f it).is_validated = it.is_validated)
    (h2 : ∀ it, (f it).line_total = it.line_total) (items : List OrderItem) :
    validatedSubtotal (items.map f) = validatedSubtotal items := by
  induction items with
  | nil => rfl
  | cons it items ih =>
    rw [List.map_cons, validatedSubtotal_cons, validatedSubtotal_cons, ih, h1 it, h2 it]

lemma applyItemUpdate_preserves (req : UpdateReq) (it : OrderItem)
    (hq : req.quantity = none) (hp : req.unit_price = none) (hv : req.is_validated = none) :
    (applyItemUpdate req it).is_validated = it.is_validated ∧
    (applyItemUpdate req it).line_total = it.line_total ∧
    (applyItemUpdate req it).quantity = it.quantity ∧
    (applyItemUpdate req it).unit_price = it.unit_price := by
  cases hpr : req.is_printed <;> simp [applyItemUpdate, hq, hp, hv, hpr]

lemma recalcItem_recalcItem (store : List Variant) (it : OrderItem) :
    recalcItem store (recalcItem store it) = recalcItem store it :=
  rfl

lemma updateOrderTotals_idem (s : OrderState) :
    updateOrderTotals (updateOrderTotals s) = updateOrderTotals s := by
  rcases s with ⟨⟨st, ba, su, ht, tt⟩, items, nid⟩
  rfl

lemma foldl_add_map {α : Type} (f : α → ℚ) (l : List α) (a : ℚ) :
    l.foldl (fun sum m => sum + f m) a = a + (l.map f).sum := by
  induction l generalizing a with
  | nil => simp
  | cons x xs ih => simp [ih, add_assoc]

lemma withIds_length (start : ℕ) (rs : List OrderItem) :
    (withIds start rs).length = rs.length := by
  induction rs generalizing start with
  | nil => rfl
  | cons r rs ih => simp [withIds, ih]

lemma withIds_mem (start : ℕ) (rs : List OrderItem) (r : OrderItem) :
    r ∈ withIds start rs → ∃ r0 ∈ rs, ∃ k, r = { r0 with id := k } := by
  induction rs generalizing start with
  | nil => intro h; cases h
  | cons r1 rs ih =>
    intro h
    rcases List.mem_cons.mp h with h | h
    · exact ⟨r1, List.mem_cons_self r1 rs, start, h⟩
    · obtain ⟨r0, hr0, k, hk⟩ := ih (start + 1) h
      exact ⟨r0, List.mem_cons_of_mem r1 hr0, k, hk⟩

lemma fetchBatchAux_delays_length (resps : List FetchResp) :
    ∀ (retries : ℕ) (delays : List ℕ), retries ≤ maxRetries →
      (fetchBatchAux retries delays resps).delays.length ≤
        delays.length + (maxRetries + 1 - retries) := by
  induction resps with
  | nil =>
    intro r ds hr
    simp only [fetchBatchAux, maxRetries] at *
    omega
  | cons resp rest ih =>
    intro r ds hr
    cases resp with
    | ok items =>
      simp only [fetchBatchAux, List.length_append, List.length_cons, List.length_nil,
        maxRetries] at *
      omega
    | rateLimited =>
      simp only [fetchBatchAux]
      by_cases h : r + 1 ≤ maxRetries
      · rw [if_pos h]
        have hrec := ih (r + 1) (ds ++ [attemptDelay r]) h
        simp only [List.length_append, List.length_cons, List.length_nil, maxRetries] at *
        omega
      · rw [if_neg h]
        simp only [List.length_append, List.length_cons, List.length_nil, maxRetries] at *
        omega
    | httpError code =>
      simp only [fetchBatchAux, List.length_append, List.length_cons, List.length_nil,
        maxRetries] at *
      omega

/-! Claim theorems. -/

/-- C1: after any mutating item operation (add, update, delete,
recalculate) the order totals satisfy `subtotal = Σ line_total` over
exactly the validated items, `total_ht = subtotal + balance_adjustment`
(including negative adjustments), and `total_ttc = total_ht * 1.2`.
The hypothesis is needed only for updates touching none of `quantity`,
`unit_price`, `is_validated`, which skip the recomputation. -/
theorem order_totals_recomputed_correctly
    (store : List Variant) (mfMap : List (String × List (String × String)))
    (op : ItemOp) (s : OrderState) (hpre : totalsInvariant s) :
    totalsInvariant (applyItemOp store mfMap op s) := by
  cases op with
  | add reqs =>
    exact totalsInvariant_setStatus _ _ (totalsInvariant_updateOrderTotals _)
  | update req =>
    show totalsInvariant (updateItem req s)
    rw [updateItem]
    by_cases hc : (req.quantity.isSome || req.unit_price.isSome || req.is_validated.isSome) = true
    · rw [if_pos hc]
      exact totalsInvariant_updateOrderTotals _
    · rw [if_neg hc]
      have hq : req.quantity = none := by
        cases h : req.quantity with
        | none => rfl
        | some q => exact absurd (by simp [h]) hc
      have hp : req.unit_price = none := by
        cases h : req.unit_price with
        | none => rfl
        | some p => exact absurd (by simp [h]) hc
      have hv : req.is_validated = none := by
        cases h : req.is_validated with
        | none => rfl
        | some b => exact absurd (by simp [h]) hc
      have hmap := validatedSubtotal_map
        (fun it => if it.id = req.itemId then applyItemUpdate req it else it)
        (fun it => by
          by_cases h : it.id = req.itemId
          · simp only [h, if_pos rfl]
            exact (applyItemUpdate_preserves req it hq hp hv).1
          · simp [h])
        (fun it => by
          by_cases h : it.id = req.itemId
          · simp only [h, if_pos rfl]
            exact (applyItemUpdate_preserves req it hq hp hv).2.1
          · simp [h])
        s.items
      exact ⟨hmap ▸ hpre.1, hpre.2.1, hpre.2.2⟩
  | del itemId =>
    exact totalsInvariant_updateOrderTotals _
  | recalc =>
    exact totalsInvariant_updateOrderTotals _

/-- Witness for C1: a concrete order with consistent totals keeps the
invariant after an add operation. -/
theorem order_totals_recomputed_correctly_witness :
    totalsInvariant c1State ∧
    totalsInvariant (applyItemOp [] [] (ItemOp.add []) c1State) :=
  ⟨⟨by simp [c1State, validatedSubtotal], by simp [c1State, jsOrQ], by simp [c1State]⟩,
    order_totals_recomputed_correctly [] [] (ItemOp.add []) c1State
      ⟨by simp [c1State, validatedSubtotal], by simp [c1State, jsOrQ], by simp [c1State]⟩⟩

/-- C2 counterexample: updating an item with `quantity = 0` together with
`unit_price = 3` leaves `line_total = 3 * previous quantity = 3`, which
differs from `unit_price * quantity = 3 * 0 = 0`, because the zero
quantity is falsy and the recomputation falls back to the stored value. -/
theorem line_total_update_counterexample :
    (applyItemUpdate c2Req c2Item).line_total ≠
      (applyItemUpdate c2Req c2Item).unit_price * (applyItemUpdate c2Req c2Item).quantity := by
  simp [applyItemUpdate, c2Req, c2Item, jsOrQ]

/-- C2 amended: after every update, `line_total = unit_price * quantity`
holds, except when the body carries `quantity = 0` together with a
nonnull, nonzero `unit_price` on an item whose stored quantity is nonzero
(there the falsy `quantity || stored` fallback picks the stored quantity).
The precondition on the stored row covers bodies that change neither
`quantity` nor `unit_price`. -/
theorem line_total_invariant_after_update
    (req : UpdateReq) (it : OrderItem)
    (hpre : it.line_total = it.unit_price * it.quantity)
    (hz : ¬(req.quantity = some 0 ∧ it.quantity ≠ 0 ∧
        req.unit_price ≠ none ∧ req.unit_price ≠ some 0)) :
    (applyItemUpdate req it).line_total =
      (applyItemUpdate req it).unit_price * (applyItemUpdate req it).quantity := by
  rcases hq : req.quantity with _ | q <;> rcases hp : req.unit_price with _ | p
  · simpa [applyItemUpdate, hq, hp] using hpre
  · simp [applyItemUpdate, hq, hp, jsOrQ]
  · simp [applyItemUpdate, hq, hp, jsOrQ]
  · by_cases hq0 : q = 0
    · subst hq0
      rw [hq, hp] at hz
      simp only [ne_eq, not_and, not_not, forall_const, reduceCtorEq, not_false_eq_true,
        Option.some.injEq] at hz
      by_cases hiq : it.quantity = 0
      · simp [applyItemUpdate, hq, hp, jsOrQ, hiq]
      · by_cases hp0 : p = 0
        · simp [applyItemUpdate, hq, hp, jsOrQ, hp0]
        · exact absurd hz (by simp [hiq, hp0])
    · simp [applyItemUpdate, hq, hp, jsOrQ, hq0]

/-- Witness for C2 amended: an update carrying nonzero `quantity = 3` and
`unit_price = 4` yields `line_total = 12 = 4 * 3`. -/
theorem line_total_invariant_after_update_witness :
    (c2wItem.line_total = c2wItem.unit_price * c2wItem.quantity) ∧
    ¬(c2wReq.quantity = some 0 ∧ c2wItem.quantity ≠ 0 ∧
        c2wReq.unit_price ≠ none ∧ c2wReq.unit_price ≠ some 0) ∧
    (applyItemUpdate c2wReq c2wItem).line_total =
      (applyItemUpdate c2wReq c2wItem).unit_price * (applyItemUpdate c2wReq c2wItem).quantity :=
  ⟨by simp [c2wItem], by simp [c2wReq],
    line_total_invariant_after_update c2wReq c2wItem (by simp [c2wItem]) (by simp [c2wReq])⟩

/-- C3: a request entry with quantity `n ≥ 1` for a stored variant with a
(nonzero) cost `c` expands to exactly `n` rows, each with `quantity = 1`,
`unit_price = c` and `line_total = c`. -/
theorem add_items_one_row_per_unit
    (store : List Variant) (mfMap : List (String × List (String × String)))
    (req : AddReq) (v : Variant) (c : ℚ) (n : ℕ)
    (hv : lookupVariant store req.variant_id = some v)
    (hc : v.cost = some c)
    (hn : req.quantity = some n) (hn1 : 1 ≤ n) :
    buildRows store mfMap req = List.replicate n
      { id := 0, variant_id := req.variant_id, product_title := req.product_title,
        variant_title := req.variant_title, sku := req.sku, quantity := 1,
        unit_price := c, line_total := c,
        metafields := metafieldsFor store mfMap req.variant_id,
        is_validated := false, is_printed := false } := by
  have h1 : variantCost store req.variant_id = c := by
    rcases eq_or_ne c 0 with h | h
    · simp [variantCost, hv, jsOrQ, hc, h]
    · simp [variantCost, hv, jsOrQ, hc, h]
  have h2 : jsOrNat req.quantity 1 = n := by
    have hn0 : n ≠ 0 := by omega
    simp [jsOrNat, hn, hn0]
  simp [buildRows, h1, h2]

/-- Witness for C3: the spec scenario, variant cost 7.50 and quantity 3
give three rows of `{quantity 1, unit_price 7.50, line_total 7.50}`. -/
theorem add_items_one_row_per_unit_witness :
    lookupVariant c3Store c3Req.variant_id = some ⟨"X", some (7.5 : ℚ), some "sv1"⟩ ∧
    (⟨"X", some (7.5 : ℚ), some "sv1"⟩ : Variant).cost = some (7.5 : ℚ) ∧
    c3Req.quantity = some 3 ∧ 1 ≤ 3 ∧
    buildRows c3Store [] c3Req = List.replicate 3
      { id := 0, variant_id := c3Req.variant_id, product_title := c3Req.product_title,
        variant_title := c3Req.variant_title, sku := c3Req.sku, quantity := 1,
        unit_price := (7.5 : ℚ), line_total := (7.5 : ℚ),
        metafields := metafieldsFor c3Store [] c3Req.variant_id,
        is_validated := false, is_printed := false } :=
  ⟨rfl, rfl, rfl, by decide,
    add_items_one_row_per_unit c3Store [] c3Req ⟨"X", some (7.5 : ℚ), some "sv1"⟩ (7.5 : ℚ) 3
      rfl rfl rfl (by decide)⟩

/-- C4 counterexample: the add-items operation on a `draft` order sets the
status to `in_progress`, a value outside the claimed set
`{draft, requested, produced, completed}`. -/
theorem status_machine_counterexample :
    (applyItemOp [] [] (ItemOp.add []) c4State).order.status = "in_progress" ∧
    "in_progress" ∉ claimedStatuses := by
  exact ⟨rfl, by decide⟩

/-- C4 amended: add-items moves a `draft` order to `in_progress` (a fifth
status value outside the claimed set) and leaves any other status
unchanged; the status-change UI offers exactly the claimed transitions
draft → requested, requested → draft | produced, produced → requested |
completed, and none out of `completed`. -/
theorem status_machine_amended
    (store : List Variant) (mfMap : List (String × List (String × String)))
    (reqs : List AddReq) (s : OrderState) :
    (applyItemOp store mfMap (ItemOp.add reqs) s).order.status =
      (if s.order.status = "draft" then "in_progress" else s.order.status) ∧
    uiStatusTargets "draft" = ["requested"] ∧
    uiStatusTargets "requested" = ["draft", "produced"] ∧
    uiStatusTargets "produced" = ["requested", "completed"] ∧
    uiStatusTargets "completed" = [] :=
  ⟨rfl, by decide, by decide, by decide, by decide⟩

/-- C5 counterexample: a level reported with `available = -3` for a mapped
inventory item is persisted with quantity `-3 < 0`, refuting the claim
that stored quantities are nonnegative once reconciled. -/
theorem inventory_level_nonnegative_counterexample :
    ∃ e ∈ processLevels [("i1", "v1")] [⟨"i1", "l1", some (-3)⟩], e.quantity < 0 := by
  decide

/-- C5 amended: every reported level whose inventory item is mapped is
persisted — negative reported quantities are tolerated, not rejected — and
the stored quantity is `available || 0` (0 when null or zero, otherwise
the reported value, which may be negative). -/
theorem inventory_level_persistence_amended
    (uuidMap : List (String × String)) (l : ShopifyLevel) (vu : String)
    (h : uuidMap.lookup l.inventory_item_id = some vu) :
    processLevels uuidMap [l] = [⟨vu, l.location_id, jsOrZ l.available 0⟩] := by
  simp [processLevels, levelRow, h]

/-- Witness for C5 amended: the negative level is persisted as `-3`. -/
theorem inventory_level_persistence_amended_witness :
    ([("i1", "v1")].lookup ((⟨"i1", "l1", some (-3)⟩ : ShopifyLevel).inventory_item_id) =
      some "v1") ∧
    processLevels [("i1", "v1")] [⟨"i1", "l1", some (-3)⟩] = [⟨"v1", "l1", (-3 : ℤ)⟩] :=
  ⟨by decide,
    inventory_level_persistence_amended [("i1", "v1")] ⟨"i1", "l1", some (-3)⟩ "v1" (by decide)⟩

/-- C6: `recalculate_prices` is idempotent — applying it twice with the
same variant store yields the same items (unit_price and line_total) and
the same order totals as applying it once. -/
theorem recalculate_prices_idempotent
    (store : List Variant) (mfMap : List (String × List (String × String)))
    (s : OrderState) :
    applyItemOp store mfMap ItemOp.recalc (applyItemOp store mfMap ItemOp.recalc s) =
      applyItemOp store mfMap ItemOp.recalc s := by
  have hm : (s.items.map (recalcItem store)).map (recalcItem store) =
      s.items.map (recalcItem store) := by
    rw [List.map_map]
    exact List.map_congr_left fun it _ => recalcItem_recalcItem store it
  calc applyItemOp store mfMap ItemOp.recalc (applyItemOp store mfMap ItemOp.recalc s)
      = updateOrderTotals { updateOrderTotals { s with items := s.items.map (recalcItem store) }
          with items := (s.items.map (recalcItem store)).map (recalcItem store) } := rfl
    _ = updateOrderTotals { updateOrderTotals { s with items := s.items.map (recalcItem store) }
          with items := s.items.map (recalcItem store) } := by rw [hm]
    _ = applyItemOp store mfMap ItemOp.recalc s :=
        updateOrderTotals_idem { s with items := s.items.map (recalcItem store) }

/-- C7: the cost-batch retry policy. The scripted sequence 429, 429, 200
succeeds with exactly 2 retries, after delays 500, 2000 and 4000 ms, and
records the returned costs; four consecutive 429s exhaust the 3 allowed
retries and fail the batch; a non-2xx non-429 response aborts the batch at
whatever attempt it occurs; batches are processed independently, so an
aborted batch does not prevent subsequent ones; no batch makes more than
4 attempts (3 retries). -/
theorem batch_retry_policy :
    fetchCostBatch c7Scenario =
      ⟨true, 2, [500, 2000, 4000], [("a", (7 : ℚ)), ("b", 0)]⟩ ∧
    fetchCostBatch (List.replicate 4 FetchResp.rateLimited) =
      ⟨false, 4, [500, 2000, 4000, 8000], []⟩ ∧
    (∀ (retries : ℕ) (delays : List ℕ) (code : ℕ) (rest : List FetchResp),
      fetchBatchAux retries delays (FetchResp.httpError code :: rest) =
        ⟨false, retries, delays ++ [attemptDelay retries], []⟩) ∧
    (∀ (script : List FetchResp) (scripts : List (List FetchResp)),
      runCostBatches (script :: scripts) = fetchCostBatch script :: runCostBatches scripts) ∧
    (∀ resps : List FetchResp, (fetchCostBatch resps).delays.length ≤ 4) := by
  refine ⟨by decide, by decide, fun r ds code rest => rfl, fun sc scs => rfl, ?_⟩
  intro resps
  have h := fetchBatchAux_delays_length resps 0 [] (by simp [maxRetries])
  simpa [fetchCostBatch, maxRetries] using h

/-- C8: the stats aggregation classifies an option value as a size (keyed
by its uppercase) exactly when it matches the size regex of the spec, and
as a color (keyed by the raw value) otherwise; in particular M, m, 3XL and
42 are sizes while French Navy and Rouge are colors. -/
theorem size_color_classification :
    (∀ (qty : ℤ) (s : String) (acc : OptionStats),
      processOption qty s acc =
        if specSizeRegexMatch s then
          { acc with bySize := bumpGroup acc.bySize (jsToUpper s) qty }
        else
          { acc with byColor := bumpGroup acc.byColor s qty }) ∧
    sizePatternTest "M" = true ∧ sizePatternTest "m" = true ∧
    sizePatternTest "3XL" = true ∧ sizePatternTest "42" = true ∧
    sizePatternTest "French Navy" = false ∧ sizePatternTest "Rouge" = false := by
  refine ⟨?_, by decide, by decide, by decide, by decide, by decide, by decide⟩
  intro qty s acc
  have h : specSizeRegexMatch s = sizePatternTest s := by
    simp only [specSizeRegexMatch, sizePatternTest,
      show sizeAlternatives.map jsToUpper = sizeAlternatives from by decide]
  rw [processOption, h]

/-- C9: the price-rule total equals base price plus the sums of the two
modifier lists and is invariant under any permutation of either list. -/
theorem price_rule_total_order_independent
    (r : PriceRule) (m : List PriceModifier) (o : List OptionPriceModifier)
    (hm : r.modifiers.Perm m) (ho : r.option_modifiers.Perm o) :
    calculateTotalPrice { r with modifiers := m, option_modifiers := o } =
      calculateTotalPrice r ∧
    calculateTotalPrice r =
      r.base_price + (r.modifiers.map modAmount).sum +
        (r.option_modifiers.map optModAmount).sum := by
  have h1 : ∀ l : List PriceModifier,
      l.foldl (fun sum mm => sum + modAmount mm) 0 = (l.map modAmount).sum := fun l => by
    simpa using foldl_add_map modAmount l 0
  have h2 : ∀ l : List OptionPriceModifier,
      l.foldl (fun sum mm => sum + optModAmount mm) 0 = (l.map optModAmount).sum := fun l => by
    simpa using foldl_add_map optModAmount l 0
  constructor
  · show calculateTotalPrice
        { sku := r.sku, base_price := r.base_price, product_type := r.product_type,
          is_active := r.is_active, modifiers := m, option_modifiers := o } = _
    unfold calculateTotalPrice
    simp only [h1, h2]
    rw [(hm.map modAmount).sum_eq, (ho.map optModAmount).sum_eq]
  · unfold calculateTotalPrice
    rw [h1, h2]

/-- Witness for C9: swapping the two metafield modifiers of a concrete
rule leaves the total unchanged and equal to base plus modifier sums. -/
theorem price_rule_total_order_independent_witness :
    c9Rule.modifiers.Perm [c9ModB, c9ModA] ∧
    c9Rule.option_modifiers.Perm [c9Opt] ∧
    (calculateTotalPrice { c9Rule with modifiers := [c9ModB, c9ModA], option_modifiers := [c9Opt] } = calculateTotalPrice c9Rule ∧
      calculateTotalPrice c9Rule =
        c9Rule.base_price + (c9Rule.modifiers.map modAmount).sum +
          (c9Rule.option_modifiers.map optModAmount).sum) :=
  ⟨List.Perm.swap c9ModB c9ModA [], List.Perm.refl [c9Opt],
    price_rule_total_order_independent c9Rule [c9ModB, c9ModA] [c9Opt]
      (List.Perm.swap c9ModB c9ModA []) (List.Perm.refl [c9Opt])⟩

/-- C10: an add-items entry whose variant id has no row in the store is
not rejected: the request still succeeds and the entry is expanded into
its `quantity || 1` rows, each with `unit_price = 0`, `line_total = 0` and
empty metafields. -/
theorem add_items_unknown_variant_tolerated
    (store : List Variant) (mfMap : List (String × List (String × String)))
    (sid oid : String) (req : AddReq) (s : OrderState)
    (hv : lookupVariant store req.variant_id = none) :
    ∃ rows s2, postAddItems (some sid) (some oid) (some [req]) store mfMap s =
        some (rows, s2) ∧
      rows.length = jsOrNat req.quantity 1 ∧
      ∀ r ∈ rows, r.quantity = 1 ∧ r.unit_price = 0 ∧ r.line_total = 0 ∧ r.metafields = [] := by
  refine ⟨insertedRows store mfMap [req] s, addItems store mfMap [req] s, rfl, ?_, ?_⟩
  · have hb : (buildRows store mfMap req).length = jsOrNat req.quantity 1 := by
      simp [buildRows]
    simp [insertedRows, withIds_length, hb]
  · intro r hr
    obtain ⟨r0, hr0, k, hk⟩ := withIds_mem s.nextId _ r hr
    have hr0b : r0 ∈ buildRows store mfMap req := by
      simpa [insertedRows] using hr0
    have hcost : variantCost store req.variant_id = 0 := by
      simp [variantCost, hv]
    have hmf : metafieldsFor store mfMap req.variant_id = [] := by
      simp [metafieldsFor, variantShopifyId, hv]
    have := List.eq_of_mem_replicate (by simpa [buildRows, hcost, hmf] using hr0b)
    subst hk
    rw [this]
    exact ⟨rfl, rfl, rfl, rfl⟩

/-- Witness for C10: a request for the unknown variant `X` with quantity 2
succeeds and yields two zero-priced rows. -/
theorem add_items_unknown_variant_tolerated_witness :
    lookupVariant ([] : List Variant) c10Req.variant_id = none ∧
    (∃ rows s2, postAddItems (some "shop") (some "order") (some [c10Req]) [] [] c10State =
        some (rows, s2) ∧
      rows.length = jsOrNat c10Req.quantity 1 ∧
      ∀ r ∈ rows, r.quantity = 1 ∧ r.unit_price = 0 ∧ r.line_total = 0 ∧ r.metafields = []) :=
  ⟨rfl, add_items_unknown_variant_tolerated [] [] "shop" "order" c10Req c10State rfl⟩

end Ivy
